import Mathlib

/-!
Shallow embedding of the kZero self-play server core
(`kz-selfplay/src/server/server.rs`, `kz-selfplay/src/bin/selfuni.rs`,
`kz-core/src/mapping/trictrac.rs`).

Rust panics/asserts are modelled as `Except`/`Option` errors; external
collaborators (the filesystem, CUDA discovery, the `board_game` crate's
boards and solver, the trictrac crates) are parameters of the embedded
functions.
-/

set_option autoImplicit false

namespace KZero

/-- `Option`-valued traversal of a list, the embedding of a Rust loop that
`unwrap`s a fallible call at each element: the whole loop panics (returns
`none`) as soon as one element fails. -/
def traverseOpt {α β : Type} (f : α → Option β) : List α → Option (List β)
  | [] => some []
  | a :: as => do
    let b ← f a
    let bs ← traverseOpt f as
    pure (b :: bs)

/-- The games recognized by `kz_util::game::Game` (`Game::parse`), as used by
the dispatch in `server.rs`. -/
inductive Game : Type
  | TTT
  | STTT
  | Ataxx (size : Nat)
  | Chess
  | ChessHist (length : Nat)
  | ArimaaSplit
  | Trictrac
  | Go (size : Nat)
  deriving DecidableEq, Repr

/-- The startup settings record (`kz-selfplay` protocol `StartupSettings`),
restricted to the fields read by `server.rs`. -/
structure StartupSettings : Type where
  muzero : Bool
  game : String
  start_pos : String
  output_folder : String
  first_gen : Nat
  games_per_gen : Nat
  cpu_threads_per_device : Nat
  gpu_batch_size : Nat
  gpu_batch_size_root : Nat
  search_batch_size : Nat
  deriving DecidableEq, Repr

/-- Modelled from the spec: the control-protocol command union
(`Command` in the protocol module, which is outside `src/`): recognized
commands are `StartupSettings`, `NewSettings`, `NewNetwork(path)`,
`WaitForNewNetwork`, `Stop`, `Ping`. Only the `StartupSettings`/other
distinction is inspected by the embedded code. -/
inductive Command : Type
  | startupSettings (s : StartupSettings)
  | newSettings
  | newNetwork (path : String)
  | waitForNewNetwork
  | stop
  | ping
  deriving DecidableEq

/-- The distinct fatal errors (Rust `assert!`/`panic!`) that can occur on the
startup path of `selfplay_server_main` and its dispatch helpers. -/
inductive StartupError : Type
  | notStartupSettings (c : Command)
  | gpuBatchSizeZero
  | searchBatchSizeZero
  | gpuBatchSizeLtSearchBatchSize
  | muzeroRootBatchSizeZero
  | muzeroSearchBatchSizeNotOne
  | outputFolderMissing
  | outputFolderNotAbsolute
  | unknownGame
  | startPosNotDefault
  | badStartPos
  | muzeroFeatureDisabled
  | muzeroNonAlternating
  deriving DecidableEq

/-- `wait_for_startup_settings` (server.rs:286-294): the first framed command
must be `StartupSettings`; any other command is a fatal panic. -/
def wait_for_startup_settings (c : Command) : Except StartupError StartupSettings :=
  match c with
  | Command.startupSettings s => Except.ok s
  | c => Except.error (StartupError.notStartupSettings c)

/-- The batch-size assertions of `selfplay_server_main` (server.rs:69-85), in
source order. -/
def validateBatchSettings (s : StartupSettings) : Except StartupError Unit :=
  if s.gpu_batch_size = 0 then Except.error StartupError.gpuBatchSizeZero
  else if s.search_batch_size = 0 then Except.error StartupError.searchBatchSizeZero
  else if ¬ (s.search_batch_size ≤ s.gpu_batch_size) then
    Except.error StartupError.gpuBatchSizeLtSearchBatchSize
  else if s.muzero then
    if s.gpu_batch_size_root = 0 then Except.error StartupError.muzeroRootBatchSizeZero
    else if ¬ (s.search_batch_size = 1) then Except.error StartupError.muzeroSearchBatchSizeNotOne
    else Except.ok ()
  else Except.ok ()

/-- `std::path::Path::is_absolute` on Unix: the path has a root component,
i.e. its first character is a slash. -/
def pathIsAbsolute (p : String) : Bool :=
  p.data.head? = some '/'

/-- The output-folder and game-identifier checks of `selfplay_server_main`
(server.rs:87-100). `fsExists` embeds the filesystem (`Path::exists`) and
`parseGame` embeds `Game::parse` (from `kz-util`, outside `src/`). -/
def validateConfig (fsExists : String → Bool) (parseGame : String → Option Game)
    (s : StartupSettings) : Except StartupError Game :=
  if ¬ fsExists s.output_folder then Except.error StartupError.outputFolderMissing
  else if ¬ pathIsAbsolute s.output_folder then Except.error StartupError.outputFolderNotAbsolute
  else
    match parseGame s.game with
    | none => Except.error StartupError.unknownGame
    | some g => Except.ok g

/-- The outcome of a successful game dispatch: the pipeline is started with
either the AlphaZero or the MuZero specialization for the dispatched game. -/
inductive DispatchOutcome : Type
  | alphaZero (g : Game)
  | muZero (g : Game)
  deriving DecidableEq

/-- `selfplay_start_dispatch_spec_alt` (server.rs:215-255): for alternating
boards, MuZero is dispatched only when the `muzero` cargo feature is compiled
in, otherwise `panic!("MuZero feature was not enabled")`. -/
def dispatchSpecAlt (muzeroFeature : Bool) (g : Game) (s : StartupSettings) :
    Except StartupError DispatchOutcome :=
  if s.muzero then
    if muzeroFeature then Except.ok (DispatchOutcome.muZero g)
    else Except.error StartupError.muzeroFeatureDisabled
  else Except.ok (DispatchOutcome.alphaZero g)

/-- `selfplay_start_dispatch_spec_non_alt` (server.rs:257-284): for
non-alternating boards, `muzero = true` is the fatal
`panic!("MuZero only supports alternating boards for now")`. -/
def dispatchSpecNonAlt (g : Game) (s : StartupSettings) :
    Except StartupError DispatchOutcome :=
  if s.muzero then Except.error StartupError.muzeroNonAlternating
  else Except.ok (DispatchOutcome.alphaZero g)

/-- `selfplay_start_dispatch_game` (server.rs:105-213). Every game except
Ataxx and Go asserts `startup_settings.start_pos == "default"`; Ataxx and Go
instead run their start-position parsers (`ataxx_start_pos`, `go_start_pos`,
outside `src/`, embedded as the fallible parameters `ataxxStartPos` and
`goStartPos`, which panic on a string they reject). -/
def selfplay_start_dispatch_game (muzeroFeature : Bool)
    (ataxxStartPos : Nat → String → Option Unit)
    (goStartPos : Nat → String → Option Unit)
    (game : Game) (s : StartupSettings) : Except StartupError DispatchOutcome :=
  match game with
  | Game.TTT =>
    if s.start_pos = "default" then dispatchSpecAlt muzeroFeature game s
    else Except.error StartupError.startPosNotDefault
  | Game.STTT =>
    if s.start_pos = "default" then dispatchSpecAlt muzeroFeature game s
    else Except.error StartupError.startPosNotDefault
  | Game.Ataxx size =>
    match ataxxStartPos size s.start_pos with
    | none => Except.error StartupError.badStartPos
    | some _ => dispatchSpecAlt muzeroFeature game s
  | Game.Chess =>
    if s.start_pos = "default" then dispatchSpecAlt muzeroFeature game s
    else Except.error StartupError.startPosNotDefault
  | Game.ChessHist _ =>
    if s.start_pos = "default" then dispatchSpecAlt muzeroFeature game s
    else Except.error StartupError.startPosNotDefault
  | Game.ArimaaSplit =>
    if s.start_pos = "default" then dispatchSpecNonAlt game s
    else Except.error StartupError.startPosNotDefault
  | Game.Trictrac =>
    if s.start_pos = "default" then dispatchSpecNonAlt game s
    else Except.error StartupError.startPosNotDefault
  | Game.Go size =>
    match goStartPos size s.start_pos with
    | none => Except.error StartupError.badStartPos
    | some _ => dispatchSpecNonAlt game s

/-- The post-connection body of `selfplay_server_main` (server.rs:66-103):
read the first command, require it to be `StartupSettings`, run the batch
and configuration assertions in source order, then dispatch the game.
`Except.error` means the process panics before any Inference, Executor,
Collector or Commander thread is spawned. -/
def selfplay_server_main (fsExists : String → Bool) (parseGame : String → Option Game)
    (muzeroFeature : Bool)
    (ataxxStartPos : Nat → String → Option Unit)
    (goStartPos : Nat → String → Option Unit)
    (firstCommand : Command) : Except StartupError DispatchOutcome := do
  let s ← wait_for_startup_settings firstCommand
  validateBatchSettings s
  let g ← validateConfig fsExists parseGame s
  selfplay_start_dispatch_game muzeroFeature ataxxStartPos goStartPos g s

/-- The channel/thread bookkeeping done by `selfplay_start` (server.rs:318-377),
keeping the quantities the spec talks about: the computed
`total_cpu_threads` and the capacity of the bounded simulation/update channel
`flume::bounded(total_cpu_threads)`. `none` models the
`assert!(!devices.is_empty())`. -/
def selfplay_start (deviceCount : Nat) (s : StartupSettings) :
    Option (Nat × Nat) :=
  if deviceCount = 0 then none
  else
    let total_cpu_threads := s.cpu_threads_per_device * deviceCount
    some (total_cpu_threads, total_cpu_threads)

/-- The CLI device selection of `selfplay_server_main` (server.rs:50-55):
with no `--device` argument, all discovered CUDA devices (`cudaAll`); with
arguments, `CudaDevice::new(d).unwrap()` for each, in order (`validDevice`
embeds which ordinals `CudaDevice::new` accepts); then
`assert!(!devices.is_empty(), "No cuda devices found")`. -/
def selectDevices (cudaAll : List Int) (validDevice : Int → Bool)
    (argDevice : List Int) : Option (List Int) := do
  let devices ←
    if argDevice.isEmpty then some cudaAll
    else traverseOpt (fun d => if validDevice d then some d else none) argDevice
  if devices.isEmpty then none else some devices

/-- The CLI port selection of `selfplay_server_main` (server.rs:58):
`args.port.unwrap_or(63105)`. -/
def selectPort (argPort : Option Nat) : Nat :=
  argPort.getD 63105

/-!
## The uniform-policy generator (`kz-selfplay/src/bin/selfuni.rs`)

The `board_game` crate is an external collaborator: a board is abstracted to
its `is_done`, `available_moves` and `play` operations (`GameRules`), the
exhaustive solver `solve_all_moves` to a function returning the
`(value.to_outcome_wdl(), best_move)` pair, and the RNG to a stream of
naturals consumed one per game step. `f32` policy entries are modelled as
rationals.
-/

/-- The board interface used by `main_generator`: `is_done`,
`available_moves().unwrap()` and `play(mv)` (fallible). -/
structure GameRules (B M : Type) : Type where
  isDone : B → Bool
  availableMoves : B → Option (List M)
  play : B → M → Option B

/-- `board_game::wdl::OutcomeWDL`, the solver's point-of-view outcome. -/
inductive OutcomeWDL : Type
  | win
  | draw
  | loss
  deriving DecidableEq

/-- The value part of an evaluation as built by `main_generator`: either
`uniform_values()` or `ZeroValuesPov::from_outcome(outcome, 0.0)`. -/
inductive GenValues : Type
  | uniform
  | fromOutcome (o : OutcomeWDL)
  deriving DecidableEq

/-- Modelled from the spec: `uniform_policy(n)` from `kz-core`'s dummy
network module (outside `src/`), the uniform distribution over `n` moves
(each entry `1/n`), per the spec's uniform-policy dummy whose emitted
distributions sum to 1. -/
def uniform_policy (n : Nat) : List ℚ :=
  List.replicate n (1 / (n : ℚ))

/-- `ZeroEvaluation`: a value estimate plus a policy distribution over the
available moves of the evaluated board. -/
structure ZeroEvaluation : Type where
  values : GenValues
  policy : List ℚ

/-- `kz_selfplay::simulation::Position`, restricted to the payload
`main_generator` fills in. -/
structure Position (B M : Type) : Type where
  board : B
  is_full_search : Bool
  played_mv : M
  zero_visits : Nat
  zero_evaluation : ZeroEvaluation
  net_evaluation : ZeroEvaluation

/-- `kz_selfplay::simulation::Simulation`: the emitted positions plus the
final board. -/
structure Simulation (B M : Type) : Type where
  positions : List (Position B M)
  final_board : B

/-- The `if let Some(moves) = solution.best_move` branch pair of
`main_generator` (selfuni.rs:132-150): pick the zero evaluation and the
played move. In the solver branch the policy marks the solver's moves
(`moves.contains(&mv) as u8 as f32 / moves.len() as f32` over the available
moves) and the move is `moves.choose(rng)`; in the fallback branch the
evaluation is the uniform net evaluation and the move is
`board.random_available_move(rng)`. Both random choices are embedded as
indexing by `r` modulo the list length, failing on an empty list. -/
def genPick {M : Type} [DecidableEq M] (solverOutcome : Option OutcomeWDL)
    (solverMoves : Option (List M)) (r : Nat) (avail : List M) :
    Option (ZeroEvaluation × M) :=
  match solverMoves with
  | some moves =>
    (moves.get? (r % moves.length)).map fun mv =>
      (⟨GenValues.fromOutcome (solverOutcome.getD OutcomeWDL.draw),
        avail.map fun m => (if m ∈ moves then (1 : ℚ) else 0) / (moves.length : ℚ)⟩, mv)
  | none =>
    (avail.get? (r % avail.length)).map fun mv =>
      (⟨GenValues.uniform, uniform_policy avail.length⟩, mv)

/-- One iteration of the `for _ in 0..max_game_length` body of
`main_generator` (selfuni.rs:121-162) on a board that is not done: build the
uniform net evaluation, consult the solver (`solverMoves` is
`solution.best_move`, `solverOutcome` is `solution.value.to_outcome_wdl()`),
pick the zero evaluation and the move (`genPick`), record the `Position`,
and `play` the move. -/
def mainGenStep {B M : Type} [DecidableEq M] (rules : GameRules B M)
    (solverOutcome : Option OutcomeWDL) (solverMoves : Option (List M))
    (r : Nat) (board : B) : Option (Position B M × B) := do
  let avail ← rules.availableMoves board
  let netEval : ZeroEvaluation := ⟨GenValues.uniform, uniform_policy avail.length⟩
  let pick ← genPick solverOutcome solverMoves r avail
  let nextBoard ← rules.play board pick.2
  pure (⟨board, true, pick.2, 0, pick.1, netEval⟩, nextBoard)

/-- The move loop of `main_generator` (selfuni.rs:118-168): run at most
`fuel = max_game_length` steps, stopping early when the board is done, and
package the recorded positions with the final board into a `Simulation`.
`solver` embeds `solve_all_moves` and `rand` the RNG stream, indexed by the
step counter. `none` models a panic inside the loop (an `unwrap` failing). -/
def mainGenLoop {B M : Type} [DecidableEq M] (rules : GameRules B M)
    (solver : B → Option OutcomeWDL × Option (List M)) (rand : Nat → Nat) :
    Nat → Nat → B → Option (Simulation B M)
  | 0, _, board => some ⟨[], board⟩
  | fuel + 1, step, board =>
    if rules.isDone board then some ⟨[], board⟩
    else do
      let pb ← mainGenStep rules (solver board).1 (solver board).2 (rand step) board
      let sim ← mainGenLoop rules solver rand fuel (step + 1) pb.2
      pure ⟨pb.1 :: sim.positions, sim.final_board⟩

/-- One outer-loop round of `main_generator` (selfuni.rs:113-175): one
complete `Simulation` generated from the start position. -/
def main_generator {B M : Type} [DecidableEq M] (rules : GameRules B M)
    (solver : B → Option OutcomeWDL × Option (List M)) (rand : Nat → Nat)
    (start_pos : B) (max_game_length : Nat) : Option (Simulation B M) :=
  mainGenLoop rules solver rand max_game_length 0 start_pos

/-- Replaying a list of moves from a board with `play`, failing where `play`
fails. -/
def replayMoves {B M : Type} (rules : GameRules B M) : B → List M → Option B
  | b, [] => some b
  | b, m :: ms => do
    let b2 ← rules.play b m
    replayMoves rules b2 ms

/-- A toy countdown game on `Nat` boards with a single move, used to evaluate
the embedded generator on concrete inputs. -/
def toyRules : GameRules Nat Unit where
  isDone := fun b => decide (b = 0)
  availableMoves := fun _ => some [()]
  play := fun b _ => some (b - 1)

/-- A solver that never finds a best move, exercising the uniform fallback
branch of the generator. -/
def toySolver : Nat → Option OutcomeWDL × Option (List Unit) :=
  fun _ => (none, none)

/-- The simulation the generator produces on the toy game from board 1 with
`max_game_length = 2`. -/
def simW : Simulation Nat Unit :=
  ⟨[⟨1, true, (), 0, ⟨GenValues.uniform, uniform_policy 1⟩,
      ⟨GenValues.uniform, uniform_policy 1⟩⟩], 0⟩

/-!
## The Trictrac input mapper (`kz-core/src/mapping/trictrac.rs`)

The `trictrac_bot`/`trictrac_store` crates are external: the game state is
abstracted to the fields `encode_input` reads. Fallible accessors
(`who_plays().unwrap()`, `find(..).unwrap()`, `get_field_checkers(..).unwrap()`)
make the embedded encoder `Option`-valued.
-/

/-- `trictrac_store::Color`. -/
inductive Color : Type
  | white
  | black
  deriving DecidableEq

/-- The per-player state read by `TrictracStdMapper::encode_input`. -/
structure TrictracPlayer : Type where
  color : Color
  points : Nat
  holes : Nat
  can_bredouille : Bool
  can_big_bredouille : Bool
  dice_roll_count : Nat

/-- The Trictrac game state (`board.inner()`) restricted to what
`encode_input` reads. `getFieldCheckers` embeds
`game_state.board.get_field_checkers(field)`, returning the checker count on
the field and the color occupying it. -/
structure TrictracGameState : Type where
  whoPlays : Option TrictracPlayer
  players : List TrictracPlayer
  turn_stage : Nat
  dice : Nat × Nat
  getFieldCheckers : Nat → Option (Nat × Option Color)

/-- `TrictracStdMapper::input_bool_shape` (trictrac.rs:14-18):
15 checkers for each player, 24 places. -/
def input_bool_shape : List Nat :=
  [2 * 15, 24, 1]

/-- `TrictracStdMapper::input_scalar_count` (trictrac.rs:20-26): turn stage,
two turn flags, two dice, five stats for each player. -/
def input_scalar_count : Nat :=
  1 + 2 + 2 + 2 * 5

/-- One bit of the board encoding (trictrac.rs:42-43):
`Some(&player.color) == color && nb_checkers == count` for a given field. -/
def fieldBit (gs : TrictracGameState) (c : Color) (nb : Nat) (field : Nat) :
    Option Bool :=
  (gs.getFieldCheckers field).map fun fc => decide (fc.2 = some c) && decide (nb = fc.1)

/-- The two nested loops `for nb_checkers in 0..15 { for field in 1..25 }`
of `encode_input` (trictrac.rs:40-46) for one player's color. -/
def encodeBoolsFor (gs : TrictracGameState) (c : Color) : Option (List Bool) :=
  (traverseOpt (fun nb => traverseOpt (fun i => fieldBit gs c nb (i + 1)) (List.range 24))
    (List.range 15)).map List.flatten

/-- Boolean pushed as a scalar, Rust `b as u8 as f32`. -/
def boolScalar (b : Bool) : ℚ :=
  if b then 1 else 0

/-- The five player stats pushed per player (trictrac.rs:62-68). -/
def playerScalars (p : TrictracPlayer) : List ℚ :=
  [(p.points : ℚ), (p.holes : ℚ), boolScalar p.can_bredouille,
   boolScalar p.can_big_bredouille, (p.dice_roll_count : ℚ)]

/-- `TrictracStdMapper::encode_input` (trictrac.rs:28-69): resolve the
point-of-view player and the opponent, push the board bits for both in POV
order, then the scalars: turn stage, the White/Black active-player flags, the
two dice divided by 6, and the stats of both players. (The Rust binds
`positions = game_state.board.to_vec()` but never reads it; the loop queries
`get_field_checkers` directly.) Returns the appended `(bools, scalars)`. -/
def encode_input (gs : TrictracGameState) : Option (List Bool × List ℚ) := do
  let pov ← gs.whoPlays
  let opp ← gs.players.find? fun p => decide (¬ p.color = pov.color)
  let povBools ← encodeBoolsFor gs pov.color
  let oppBools ← encodeBoolsFor gs opp.color
  let scalars : List ℚ :=
    [(gs.turn_stage : ℚ)]
    ++ [boolScalar (decide (pov.color = Color.white)),
        boolScalar (decide (pov.color = Color.black))]
    ++ [(gs.dice.1 : ℚ) / 6, (gs.dice.2 : ℚ) / 6]
    ++ playerScalars pov ++ playerScalars opp
  pure (povBools ++ oppBools, scalars)

/-- A concrete two-player Trictrac game state on an empty board, used to
evaluate the embedded encoder on an input where it succeeds. -/
def gsW : TrictracGameState where
  whoPlays := some ⟨Color.white, 3, 1, true, false, 7⟩
  players := [⟨Color.white, 3, 1, true, false, 7⟩, ⟨Color.black, 2, 0, false, false, 6⟩]
  turn_stage := 1
  dice := (3, 5)
  getFieldCheckers := fun _ => some (0, none)

/-!
## Helper lemmas
-/

theorem traverseOpt_length {α β : Type} (f : α → Option β) :
    ∀ (l : List α) (l2 : List β), traverseOpt f l = some l2 → l2.length = l.length := by
  intro l
  induction l with
  | nil =>
    intro l2 h
    simp only [traverseOpt, Option.some.injEq] at h
    subst h; rfl
  | cons a as ih =>
    intro l2 h
    simp only [traverseOpt, Option.bind_eq_bind, Option.bind_eq_some] at h
    obtain ⟨b, hb, bs, hbs, hl2⟩ := h
    simp only [Option.pure_def, Option.some.injEq] at hl2
    simp [← hl2, ih bs hbs]

theorem traverseOpt_mem {α β : Type} (f : α → Option β) :
    ∀ (l : List α) (l2 : List β), traverseOpt f l = some l2 →
      ∀ b ∈ l2, ∃ a ∈ l, f a = some b := by
  intro l
  induction l with
  | nil =>
    intro l2 h
    simp only [traverseOpt, Option.some.injEq] at h
    subst h
    intro b hb
    simp at hb
  | cons a as ih =>
    intro l2 h
    simp only [traverseOpt, Option.bind_eq_bind, Option.bind_eq_some] at h
    obtain ⟨b, hb, bs, hbs, hl2⟩ := h
    simp only [Option.pure_def, Option.some.injEq] at hl2
    intro x hx
    rw [← hl2] at hx
    rcases List.mem_cons.mp hx with hx | hx
    · exact ⟨a, List.mem_cons_self a as, hx ▸ hb⟩
    · obtain ⟨a2, ha2, hfa2⟩ := ih bs hbs x hx
      exact ⟨a2, List.mem_cons_of_mem a ha2, hfa2⟩

theorem traverseOpt_valid_id {α : Type} (valid : α → Bool) :
    ∀ l : List α, (∀ d ∈ l, valid d = true) →
      traverseOpt (fun d => if valid d then some d else none) l = some l := by
  intro l
  induction l with
  | nil => intro _; rfl
  | cons a as ih =>
    intro h
    have ha : valid a = true := h a (List.mem_cons_self a as)
    have has : traverseOpt (fun d => if valid d then some d else none) as = some as :=
      ih fun d hd => h d (List.mem_cons_of_mem a hd)
    simp [traverseOpt, ha, has]

theorem selfplay_server_main_on_startup (fs : String → Bool) (pg : String → Option Game)
    (mf : Bool) (ax go : Nat → String → Option Unit) (s : StartupSettings) :
    selfplay_server_main fs pg mf ax go (Command.startupSettings s) =
      (validateBatchSettings s).bind fun _ =>
        (validateConfig fs pg s).bind fun g =>
          selfplay_start_dispatch_game mf ax go g s := rfl

theorem except_bind_ok {ε α β : Type} (x : Except ε α) (f : α → Except ε β) (b : β)
    (h : x.bind f = Except.ok b) : ∃ a, x = Except.ok a ∧ f a = Except.ok b := by
  cases x with
  | error e => exact absurd h (by simp [Except.bind])
  | ok a => exact ⟨a, rfl, h⟩

theorem dispatchSpecAlt_ok (mf : Bool) (g : Game) (s : StartupSettings)
    (o : DispatchOutcome) (hmu : s.muzero = true)
    (h : dispatchSpecAlt mf g s = Except.ok o) : o = DispatchOutcome.muZero g := by
  unfold dispatchSpecAlt at h
  split_ifs at h with h1
  cases h; rfl

theorem dispatchSpecNonAlt_muzero (g : Game) (s : StartupSettings)
    (hmu : s.muzero = true) :
    dispatchSpecNonAlt g s = Except.error StartupError.muzeroNonAlternating := by
  unfold dispatchSpecNonAlt
  simp [hmu]

theorem validateConfig_ok (fs : String → Bool) (pg : String → Option Game)
    (s : StartupSettings) (g : Game) (h : validateConfig fs pg s = Except.ok g) :
    fs s.output_folder = true ∧ pathIsAbsolute s.output_folder = true ∧
      pg s.game = some g := by
  unfold validateConfig at h
  split_ifs at h with h1 h2
  cases hpg : pg s.game with
  | none => rw [hpg] at h; cases h
  | some g2 =>
    rw [hpg] at h
    cases h
    exact ⟨by simpa using h1, by simpa using h2, rfl⟩

/-!
## The claims
-/

/-- Claim C1: after receiving `StartupSettings`, startup fails fatally before
spawning any thread when `gpu_batch_size = 0`, `search_batch_size = 0` or
`gpu_batch_size < search_batch_size`, and, with `muzero`, additionally when
`gpu_batch_size_root = 0` or `search_batch_size ≠ 1`; when all these checks
pass, startup proceeds (through the configuration checks) to game dispatch. -/
theorem startup_batch_invariants (s : StartupSettings) :
    (validateBatchSettings s = Except.ok () ↔
      (s.gpu_batch_size ≠ 0 ∧ s.search_batch_size ≠ 0 ∧
        s.search_batch_size ≤ s.gpu_batch_size ∧
        (s.muzero = true → s.gpu_batch_size_root ≠ 0 ∧ s.search_batch_size = 1))) ∧
    (∀ fs pg mf ax go, validateBatchSettings s ≠ Except.ok () →
      ∃ e, selfplay_server_main fs pg mf ax go (Command.startupSettings s) =
        Except.error e) ∧
    (∀ fs pg mf ax go, validateBatchSettings s = Except.ok () →
      selfplay_server_main fs pg mf ax go (Command.startupSettings s) =
        (validateConfig fs pg s).bind fun g =>
          selfplay_start_dispatch_game mf ax go g s) := by
  refine ⟨?_, ?_, ?_⟩
  · unfold validateBatchSettings
    split_ifs with h1 h2 h3 h4 h5 h6 <;> simp_all
  · intro fs pg mf ax go h
    cases hv : validateBatchSettings s with
    | error e => exact ⟨e, by rw [selfplay_server_main_on_startup, hv]; rfl⟩
    | ok u => cases u; exact absurd hv h
  · intro fs pg mf ax go hv
    rw [selfplay_server_main_on_startup, hv]
    rfl

/-- Claim C1 witness: the spec's MuZero-guard scenario (`muzero = true`,
`search_batch_size = 2`) is fatal at startup. -/
theorem startup_batch_invariants_witness :
    ∃ e, selfplay_server_main (fun _ => true) (fun _ => some Game.TTT) true
      (fun _ _ => some ()) (fun _ _ => some ())
      (Command.startupSettings ⟨true, "ttt", "default", "/out", 0, 100, 2, 4, 16, 2⟩) =
        Except.error e :=
  (startup_batch_invariants ⟨true, "ttt", "default", "/out", 0, 100, 2, 4, 16, 2⟩).2.1
    (fun _ => true) (fun _ => some Game.TTT) true (fun _ _ => some ()) (fun _ _ => some ())
    (fun hc => Except.noConfusion hc)

/-- Claim C2: the first framed command must be `StartupSettings`: that command
returns the settings record, and any other first command is fatal before any
thread is spawned. -/
theorem first_command_must_be_startup (c : Command) :
    (∀ s, wait_for_startup_settings c = Except.ok s ↔ c = Command.startupSettings s) ∧
    ((∀ s, c ≠ Command.startupSettings s) → ∀ fs pg mf ax go,
      ∃ e, selfplay_server_main fs pg mf ax go c = Except.error e) := by
  constructor
  · intro s
    cases c <;> simp [wait_for_startup_settings]
  · intro h fs pg mf ax go
    cases c with
    | startupSettings s => exact absurd rfl (h s)
    | newSettings => exact ⟨StartupError.notStartupSettings Command.newSettings, rfl⟩
    | newNetwork p => exact ⟨StartupError.notStartupSettings (Command.newNetwork p), rfl⟩
    | waitForNewNetwork =>
      exact ⟨StartupError.notStartupSettings Command.waitForNewNetwork, rfl⟩
    | stop => exact ⟨StartupError.notStartupSettings Command.stop, rfl⟩
    | ping => exact ⟨StartupError.notStartupSettings Command.ping, rfl⟩

/-- Claim C2 witness: the spec's malformed-first-command scenario: a client
whose first message is `NewSettings` is a fatal protocol error. -/
theorem first_command_must_be_startup_witness :
    ∃ e, selfplay_server_main (fun _ => true) (fun _ => some Game.TTT) false
      (fun _ _ => some ()) (fun _ _ => some ()) Command.newSettings = Except.error e :=
  (first_command_must_be_startup Command.newSettings).2
    (fun _ h => Command.noConfusion h)
    (fun _ => true) (fun _ => some Game.TTT) false (fun _ _ => some ()) (fun _ _ => some ())

/-- Claim C5: a non-existent output folder, a non-absolute output folder path
or an unknown game identifier is fatal before the game is dispatched and
before any pipeline component is started. -/
theorem config_errors_fatal (fs : String → Bool) (pg : String → Option Game)
    (mf : Bool) (ax go : Nat → String → Option Unit) (s : StartupSettings)
    (h : fs s.output_folder = false ∨ pathIsAbsolute s.output_folder = false ∨
      pg s.game = none) :
    ∃ e, selfplay_server_main fs pg mf ax go (Command.startupSettings s) =
      Except.error e := by
  cases hm : selfplay_server_main fs pg mf ax go (Command.startupSettings s) with
  | error e => exact ⟨e, rfl⟩
  | ok o =>
    exfalso
    rw [selfplay_server_main_on_startup] at hm
    obtain ⟨u, _, hm2⟩ := except_bind_ok _ _ _ hm
    obtain ⟨g, hcfg, _⟩ := except_bind_ok _ _ _ hm2
    obtain ⟨hfs, habs, hpg⟩ := validateConfig_ok fs pg s g hcfg
    rcases h with h | h | h
    · rw [hfs] at h; cases h
    · rw [habs] at h; cases h
    · rw [hpg] at h; cases h

/-- Claim C5 witness: a relative output folder path is fatal. -/
theorem config_errors_fatal_witness :
    ∃ e, selfplay_server_main (fun _ => true) (fun _ => some Game.TTT) false
      (fun _ _ => some ()) (fun _ _ => some ())
      (Command.startupSettings ⟨false, "ttt", "default", "out", 0, 100, 2, 16, 16, 4⟩) =
        Except.error e :=
  config_errors_fatal (fun _ => true) (fun _ => some Game.TTT) false
    (fun _ _ => some ()) (fun _ _ => some ())
    ⟨false, "ttt", "default", "out", 0, 100, 2, 16, 16, 4⟩
    (Or.inr (Or.inl (by decide)))

/-- Claim C6: the simulation/update channel created by `selfplay_start` is
bounded with capacity exactly `total_cpu_threads`, which is
`cpu_threads_per_device` times the number of devices in use. -/
theorem simulation_channel_capacity (deviceCount : Nat) (s : StartupSettings)
    (h : deviceCount ≠ 0) :
    selfplay_start deviceCount s =
      some (s.cpu_threads_per_device * deviceCount,
            s.cpu_threads_per_device * deviceCount) := by
  unfold selfplay_start
  simp [h]

/-- Claim C6 witness: with 4 CPU threads per device and 2 devices, the channel
capacity is 8. -/
theorem simulation_channel_capacity_witness :
    selfplay_start 2 ⟨false, "ttt", "default", "/out", 0, 100, 4, 16, 16, 4⟩ =
      some (8, 8) :=
  simulation_channel_capacity 2 ⟨false, "ttt", "default", "/out", 0, 100, 4, 16, 16, 4⟩
    (by decide)

/-- Claim C7: with no `--device` argument the server uses all discovered CUDA
devices and fails when there are none; with `--device` arguments it uses
exactly those in order; the port defaults to 63105 and otherwise is the one
given. -/
theorem cli_devices_and_port (cudaAll : List Int) (validDevice : Int → Bool)
    (argDevice : List Int) (p : Nat) :
    (argDevice = [] →
      selectDevices cudaAll validDevice argDevice =
        if cudaAll.isEmpty then none else some cudaAll) ∧
    ((∀ d ∈ argDevice, validDevice d = true) → argDevice ≠ [] →
      selectDevices cudaAll validDevice argDevice = some argDevice) ∧
    selectPort none = 63105 ∧ selectPort (some p) = p := by
  refine ⟨?_, ?_, rfl, rfl⟩
  · intro h
    subst h
    rfl
  · intro hvalid hne
    have ht := traverseOpt_valid_id validDevice argDevice hvalid
    have hemp : argDevice.isEmpty = false := by
      cases argDevice with
      | nil => exact absurd rfl hne
      | cons a as => rfl
    simp [selectDevices, ht, hemp]
    exact hne

/-- Claim C8: every game other than Ataxx and Go requires
`start_pos = "default"` at dispatch; Ataxx and Go instead hand the string to
their start-position parsers, and dispatch succeeds for a non-default string
those parsers accept. -/
theorem default_start_pos_required (mf : Bool) (ax go : Nat → String → Option Unit)
    (s : StartupSettings) (hs : s.start_pos ≠ "default") :
    (∀ g, (g = Game.TTT ∨ g = Game.STTT ∨ g = Game.Chess ∨ (∃ n, g = Game.ChessHist n) ∨
        g = Game.ArimaaSplit ∨ g = Game.Trictrac) →
      selfplay_start_dispatch_game mf ax go g s =
        Except.error StartupError.startPosNotDefault) ∧
    (∀ size, ax size s.start_pos = some () → s.muzero = false →
      selfplay_start_dispatch_game mf ax go (Game.Ataxx size) s =
        Except.ok (DispatchOutcome.alphaZero (Game.Ataxx size))) ∧
    (∀ size, go size s.start_pos = some () → s.muzero = false →
      selfplay_start_dispatch_game mf ax go (Game.Go size) s =
        Except.ok (DispatchOutcome.alphaZero (Game.Go size))) := by
  refine ⟨?_, ?_, ?_⟩
  · intro g hg
    rcases hg with rfl | rfl | rfl | ⟨n, rfl⟩ | rfl | rfl <;>
      simp [selfplay_start_dispatch_game, hs]
  · intro size hax hmu
    simp [selfplay_start_dispatch_game, hax, dispatchSpecAlt, hmu]
  · intro size hgo hmu
    simp [selfplay_start_dispatch_game, hgo, dispatchSpecNonAlt, hmu]

/-- Claim C8 witness: with a non-default start position string, TTT dispatch
is the start-position assertion failure, while Ataxx dispatch (whose parser
accepts the string) succeeds. -/
theorem default_start_pos_required_witness :
    selfplay_start_dispatch_game false (fun _ _ => some ()) (fun _ _ => some ())
        Game.TTT ⟨false, "ttt", "x5/6/x5 x", "/out", 0, 100, 2, 16, 16, 4⟩ =
      Except.error StartupError.startPosNotDefault ∧
    selfplay_start_dispatch_game false (fun _ _ => some ()) (fun _ _ => some ())
        (Game.Ataxx 7) ⟨false, "ttt", "x5/6/x5 x", "/out", 0, 100, 2, 16, 16, 4⟩ =
      Except.ok (DispatchOutcome.alphaZero (Game.Ataxx 7)) :=
  ⟨(default_start_pos_required false (fun _ _ => some ()) (fun _ _ => some ())
      ⟨false, "ttt", "x5/6/x5 x", "/out", 0, 100, 2, 16, 16, 4⟩ (by decide)).1
      Game.TTT (Or.inl rfl),
   (default_start_pos_required false (fun _ _ => some ()) (fun _ _ => some ())
      ⟨false, "ttt", "x5/6/x5 x", "/out", 0, 100, 2, 16, 16, 4⟩ (by decide)).2.1
      7 rfl rfl⟩

/-- Claim C9: with `muzero = true` (and the batch-size invariants holding),
dispatch of a non-alternating game (ArimaaSplit, Trictrac, Go) is fatal, and
any successful dispatch under `muzero = true` is a MuZero run of an
alternating-board game. -/
theorem muzero_only_alternating (mf : Bool) (ax go : Nat → String → Option Unit)
    (s : StartupSettings) (hmu : s.muzero = true)
    (hv : validateBatchSettings s = Except.ok ()) :
    (∀ g, (g = Game.ArimaaSplit ∨ g = Game.Trictrac ∨ (∃ n, g = Game.Go n)) →
      ∃ e, selfplay_start_dispatch_game mf ax go g s = Except.error e) ∧
    (∀ g o, selfplay_start_dispatch_game mf ax go g s = Except.ok o →
      o = DispatchOutcome.muZero g ∧
        (g = Game.TTT ∨ g = Game.STTT ∨ (∃ n, g = Game.Ataxx n) ∨ g = Game.Chess ∨
          (∃ n, g = Game.ChessHist n))) := by
  constructor
  · intro g hg
    rcases hg with rfl | rfl | ⟨n, rfl⟩
    · by_cases hd : s.start_pos = "default"
      · exact ⟨StartupError.muzeroNonAlternating,
          by simp [selfplay_start_dispatch_game, hd, dispatchSpecNonAlt, hmu]⟩
      · exact ⟨StartupError.startPosNotDefault,
          by simp [selfplay_start_dispatch_game, hd]⟩
    · by_cases hd : s.start_pos = "default"
      · exact ⟨StartupError.muzeroNonAlternating,
          by simp [selfplay_start_dispatch_game, hd, dispatchSpecNonAlt, hmu]⟩
      · exact ⟨StartupError.startPosNotDefault,
          by simp [selfplay_start_dispatch_game, hd]⟩
    · cases hgo : go n s.start_pos with
      | none => exact ⟨StartupError.badStartPos,
          by simp [selfplay_start_dispatch_game, hgo]⟩
      | some u =>
        cases u
        exact ⟨StartupError.muzeroNonAlternating,
          by simp [selfplay_start_dispatch_game, hgo, dispatchSpecNonAlt, hmu]⟩
  · intro g o hok
    cases g with
    | TTT =>
      refine ⟨?_, Or.inl rfl⟩
      simp only [selfplay_start_dispatch_game] at hok
      split_ifs at hok
      exact dispatchSpecAlt_ok mf Game.TTT s o hmu hok
    | STTT =>
      refine ⟨?_, Or.inr (Or.inl rfl)⟩
      simp only [selfplay_start_dispatch_game] at hok
      split_ifs at hok
      exact dispatchSpecAlt_ok mf Game.STTT s o hmu hok
    | Ataxx n =>
      refine ⟨?_, Or.inr (Or.inr (Or.inl ⟨n, rfl⟩))⟩
      simp only [selfplay_start_dispatch_game] at hok
      cases hax : ax n s.start_pos with
      | none => simp only [hax] at hok; cases hok
      | some u =>
        simp only [hax] at hok
        exact dispatchSpecAlt_ok mf (Game.Ataxx n) s o hmu hok
    | Chess =>
      refine ⟨?_, Or.inr (Or.inr (Or.inr (Or.inl rfl)))⟩
      simp only [selfplay_start_dispatch_game] at hok
      split_ifs at hok
      exact dispatchSpecAlt_ok mf Game.Chess s o hmu hok
    | ChessHist n =>
      refine ⟨?_, Or.inr (Or.inr (Or.inr (Or.inr ⟨n, rfl⟩)))⟩
      simp only [selfplay_start_dispatch_game] at hok
      split_ifs at hok
      exact dispatchSpecAlt_ok mf (Game.ChessHist n) s o hmu hok
    | ArimaaSplit =>
      exfalso
      simp only [selfplay_start_dispatch_game] at hok
      split_ifs at hok
      rw [dispatchSpecNonAlt_muzero _ _ hmu] at hok
      cases hok
    | Trictrac =>
      exfalso
      simp only [selfplay_start_dispatch_game] at hok
      split_ifs at hok
      rw [dispatchSpecNonAlt_muzero _ _ hmu] at hok
      cases hok
    | Go n =>
      exfalso
      simp only [selfplay_start_dispatch_game] at hok
      cases hgo : go n s.start_pos with
      | none => simp only [hgo] at hok; cases hok
      | some u =>
        simp only [hgo] at hok
        rw [dispatchSpecNonAlt_muzero _ _ hmu] at hok
        cases hok

/-- Claim C9 witness: `muzero = true` with Trictrac and valid batch-size
settings is fatal at dispatch. -/
theorem muzero_only_alternating_witness :
    ∃ e, selfplay_start_dispatch_game true (fun _ _ => some ()) (fun _ _ => some ())
      Game.Trictrac ⟨true, "trictrac", "default", "/out", 0, 100, 2, 16, 16, 1⟩ =
        Except.error e :=
  (muzero_only_alternating true (fun _ _ => some ()) (fun _ _ => some ())
      ⟨true, "trictrac", "default", "/out", 0, 100, 2, 16, 16, 1⟩ rfl rfl).1
    Game.Trictrac (Or.inr (Or.inl rfl))

/-- Claim C7 witness: `--device 3 --device 1` uses exactly devices `[3, 1]` in
order, and the default port is 63105. -/
theorem cli_devices_and_port_witness :
    selectDevices [0, 1] (fun _ => true) [3, 1] = some [3, 1] ∧
      selectPort none = 63105 :=
  ⟨(cli_devices_and_port [0, 1] (fun _ => true) [3, 1] 0).2.1
      (fun d _ => rfl) (by decide),
    (cli_devices_and_port [0, 1] (fun _ => true) [3, 1] 0).2.2.1⟩

theorem encodeBoolsFor_length (gs : TrictracGameState) (c : Color) (l : List Bool)
    (h : encodeBoolsFor gs c = some l) : l.length = 360 := by
  unfold encodeBoolsFor at h
  cases ht : traverseOpt
      (fun nb => traverseOpt (fun i => fieldBit gs c nb (i + 1)) (List.range 24))
      (List.range 15) with
  | none => rw [ht] at h; cases h
  | some rows =>
    rw [ht] at h
    simp only [Option.map_some', Option.some.injEq] at h
    have hlen : rows.length = 15 := by
      simpa using traverseOpt_length _ _ _ ht
    have hrow : ∀ r ∈ rows, r.length = 24 := by
      intro r hr
      obtain ⟨nb, _, hfr⟩ := traverseOpt_mem _ _ _ ht r hr
      simpa using traverseOpt_length _ _ _ hfr
    have hmap : rows.map List.length = List.replicate 15 24 := by
      rw [List.eq_replicate_iff]
      refine ⟨by simp [hlen], ?_⟩
      intro b hb
      obtain ⟨r, hr, hrb⟩ := List.mem_map.mp hb
      rw [← hrb]
      exact hrow r hr
    rw [← h, List.length_flatten, hmap]
    simp

/-- Claim C10: whenever `TrictracStdMapper::encode_input` succeeds it appends
exactly `input_scalar_count = 15` scalars and exactly `720` booleans, the
product of `input_bool_shape = [30, 24, 1]`. -/
theorem trictrac_encode_input_sizes (gs : TrictracGameState)
    (bools : List Bool) (scalars : List ℚ)
    (h : encode_input gs = some (bools, scalars)) :
    scalars.length = input_scalar_count ∧ input_scalar_count = 15 ∧
      bools.length = input_bool_shape.prod ∧ input_bool_shape.prod = 720 := by
  simp only [encode_input, Option.bind_eq_bind, Option.bind_eq_some, Option.pure_def,
    Option.some.injEq, Prod.mk.injEq] at h
  obtain ⟨pov, _, opp, _, povB, hpovB, oppB, hoppB, hb, hs⟩ := h
  refine ⟨?_, rfl, ?_, rfl⟩
  · rw [← hs]
    simp [playerScalars, input_scalar_count]
  · rw [← hb]
    simp [encodeBoolsFor_length gs pov.color povB hpovB,
      encodeBoolsFor_length gs opp.color oppB hoppB, input_bool_shape]

set_option maxRecDepth 8192 in
/-- Claim C10 witness: on a concrete game state the encoder emits 15 scalars
and 720 booleans. -/
theorem trictrac_encode_input_sizes_witness :
    ([(1 : ℚ), 1, 0, 3 / 6, 5 / 6, 3, 1, 1, 0, 7, 2, 0, 0, 0, 6].length =
        input_scalar_count) ∧
      input_scalar_count = 15 ∧
      ((List.replicate 720 false).length = input_bool_shape.prod) ∧
      input_bool_shape.prod = 720 :=
  trictrac_encode_input_sizes gsW (List.replicate 720 false)
    [(1 : ℚ), 1, 0, 3 / 6, 5 / 6, 3, 1, 1, 0, 7, 2, 0, 0, 0, 6] (by rfl)

theorem genPick_spec {M : Type} [DecidableEq M] (so : Option OutcomeWDL)
    (sm : Option (List M)) (r : Nat) (avail : List M) (z : ZeroEvaluation) (mv : M)
    (h : genPick so sm r avail = some (z, mv)) :
    (∃ moves, sm = some moves ∧ mv ∈ moves ∧
        z.policy = avail.map fun m => (if m ∈ moves then (1 : ℚ) else 0) / (moves.length : ℚ)) ∨
      (sm = none ∧ mv ∈ avail ∧ z.policy = uniform_policy avail.length) := by
  cases sm with
  | some moves =>
    simp only [genPick] at h
    cases hg : moves.get? (r % moves.length) with
    | none => rw [hg] at h; cases h
    | some mv2 =>
      rw [hg] at h
      simp only [Option.map_some', Option.some.injEq, Prod.mk.injEq] at h
      obtain ⟨hz, hmv⟩ := h
      subst hz
      subst hmv
      exact Or.inl ⟨moves, rfl, List.get?_mem hg, rfl⟩
  | none =>
    simp only [genPick] at h
    cases hg : avail.get? (r % avail.length) with
    | none => rw [hg] at h; cases h
    | some mv2 =>
      rw [hg] at h
      simp only [Option.map_some', Option.some.injEq, Prod.mk.injEq] at h
      obtain ⟨hz, hmv⟩ := h
      subst hz
      subst hmv
      exact Or.inr ⟨rfl, List.get?_mem hg, rfl⟩

theorem mainGenStep_spec {B M : Type} [DecidableEq M] (rules : GameRules B M)
    (so : Option OutcomeWDL) (sm : Option (List M)) (r : Nat) (board : B)
    (pos : Position B M) (nextBoard : B)
    (h : mainGenStep rules so sm r board = some (pos, nextBoard)) :
    pos.board = board ∧
      rules.play board pos.played_mv = some nextBoard ∧
      ∃ avail, rules.availableMoves board = some avail ∧
        pos.net_evaluation.policy = uniform_policy avail.length ∧
        ((∃ moves, sm = some moves ∧ pos.played_mv ∈ moves ∧
            pos.zero_evaluation.policy =
              avail.map fun m => (if m ∈ moves then (1 : ℚ) else 0) / (moves.length : ℚ)) ∨
          (sm = none ∧ pos.played_mv ∈ avail ∧
            pos.zero_evaluation.policy = uniform_policy avail.length)) := by
  unfold mainGenStep at h
  cases ha : rules.availableMoves board with
  | none => rw [ha] at h; cases h
  | some avail =>
    rw [ha] at h
    simp only [Option.pure_def, Option.bind_eq_bind, Option.some_bind] at h
    cases hpick : genPick so sm r avail with
    | none => rw [hpick] at h; cases h
    | some zm =>
      obtain ⟨z, mv⟩ := zm
      rw [hpick] at h
      simp only [Option.some_bind] at h
      cases hp : rules.play board mv with
      | none => rw [hp] at h; cases h
      | some nb =>
        rw [hp] at h
        simp only [Option.some_bind, Option.some.injEq, Prod.mk.injEq] at h
        obtain ⟨hpos, hnb⟩ := h
        subst hnb
        subst hpos
        exact ⟨rfl, hp, avail, rfl, rfl, genPick_spec so sm r avail z mv hpick⟩

theorem mainGenLoop_spec {B M : Type} [DecidableEq M] (rules : GameRules B M)
    (solver : B → Option OutcomeWDL × Option (List M)) (rand : Nat → Nat) :
    ∀ (fuel step : Nat) (board : B) (sim : Simulation B M),
      mainGenLoop rules solver rand fuel step board = some sim →
      replayMoves rules board (sim.positions.map Position.played_mv) =
          some sim.final_board ∧
        (∀ p, sim.positions.head? = some p → p.board = board) ∧
        (∀ p ∈ sim.positions, ∃ avail,
          rules.availableMoves p.board = some avail ∧
          ((∃ moves, (solver p.board).2 = some moves ∧ p.played_mv ∈ moves ∧
              p.zero_evaluation.policy =
                avail.map fun m => (if m ∈ moves then (1 : ℚ) else 0) / (moves.length : ℚ)) ∨
            ((solver p.board).2 = none ∧ p.played_mv ∈ avail ∧
              p.zero_evaluation.policy = uniform_policy avail.length))) := by
  intro fuel
  induction fuel with
  | zero =>
    intro step board sim h
    simp only [mainGenLoop, Option.some.injEq] at h
    subst h
    refine ⟨rfl, ?_, ?_⟩
    · intro p hp; simp at hp
    · intro p hp; simp at hp
  | succ n ih =>
    intro step board sim h
    rw [mainGenLoop] at h
    by_cases hdone : rules.isDone board
    · rw [if_pos hdone] at h
      simp only [Option.some.injEq] at h
      subst h
      refine ⟨rfl, ?_, ?_⟩
      · intro p hp; simp at hp
      · intro p hp; simp at hp
    · rw [if_neg hdone] at h
      cases hstep : mainGenStep rules (solver board).1 (solver board).2 (rand step) board with
      | none => rw [hstep] at h; cases h
      | some pb =>
        obtain ⟨pos, nextBoard⟩ := pb
        rw [hstep] at h
        simp only [Option.pure_def, Option.bind_eq_bind, Option.some_bind] at h
        cases hrec : mainGenLoop rules solver rand n (step + 1) nextBoard with
        | none => rw [hrec] at h; cases h
        | some sim2 =>
          rw [hrec] at h
          simp only [Option.some_bind, Option.some.injEq] at h
          subst h
          obtain ⟨hb, hplay, avail, ha, _, hcase⟩ :=
            mainGenStep_spec rules (solver board).1 (solver board).2 (rand step)
              board pos nextBoard hstep
          obtain ⟨hreplay2, _, hpos2⟩ := ih (step + 1) nextBoard sim2 hrec
          refine ⟨?_, ?_, ?_⟩
          · simp only [List.map_cons, replayMoves]
            rw [hplay]
            simp only [Option.pure_def, Option.bind_eq_bind, Option.some_bind]
            exact hreplay2
          · intro p hp
            simp only [List.head?_cons, Option.some.injEq] at hp
            subst hp
            exact hb
          · intro p hp
            rcases List.mem_cons.mp hp with rfl | hp2
            · rw [hb]
              exact ⟨avail, ha, hcase⟩
            · exact hpos2 p hp2

theorem uniform_policy_length (n : Nat) : (uniform_policy n).length = n := by
  simp [uniform_policy]

theorem uniform_policy_nonneg (n : Nat) : ∀ x ∈ uniform_policy n, 0 ≤ x := by
  intro x hx
  rw [uniform_policy] at hx
  rw [List.eq_of_mem_replicate hx]
  exact one_div_nonneg.mpr (Nat.cast_nonneg n)

theorem uniform_policy_sum (n : Nat) (h : n ≠ 0) : (uniform_policy n).sum = 1 := by
  rw [uniform_policy, List.sum_replicate, nsmul_eq_mul, mul_one_div]
  exact div_self (by exact_mod_cast h)

theorem indicator_policy_nonneg {M : Type} [DecidableEq M] (avail moves : List M) :
    ∀ x ∈ avail.map fun m => (if m ∈ moves then (1 : ℚ) else 0) / (moves.length : ℚ),
      0 ≤ x := by
  intro x hx
  simp only [List.mem_map] at hx
  obtain ⟨m, _, rfl⟩ := hx
  apply div_nonneg
  · split_ifs <;> norm_num
  · exact Nat.cast_nonneg _

theorem filter_length_of_nodup {M : Type} [DecidableEq M] (avail moves : List M)
    (ha : avail.Nodup) (hm : moves.Nodup) (hsub : ∀ m ∈ moves, m ∈ avail) :
    (avail.filter fun m => decide (m ∈ moves)).length = moves.length := by
  have h1 : (avail.filter fun m => decide (m ∈ moves)).Nodup := ha.filter _
  have h2 : ∀ x, x ∈ avail.filter (fun m => decide (m ∈ moves)) ↔ x ∈ moves := by
    intro x
    simp only [List.mem_filter, decide_eq_true_eq]
    exact ⟨fun hx => hx.2, fun hx => ⟨hsub x hx, hx⟩⟩
  exact ((List.perm_ext_iff_of_nodup h1 hm).2 h2).length_eq

theorem indicator_policy_sum {M : Type} [DecidableEq M] (avail moves : List M)
    (ha : avail.Nodup) (hm : moves.Nodup) (hsub : ∀ m ∈ moves, m ∈ avail)
    (hne : moves ≠ []) :
    (avail.map fun m => (if m ∈ moves then (1 : ℚ) else 0) / (moves.length : ℚ)).sum
      = 1 := by
  have hsum : ∀ l : List M,
      (l.map fun m => (if m ∈ moves then (1 : ℚ) else 0) / (moves.length : ℚ)).sum =
        ((l.filter fun m => decide (m ∈ moves)).length : ℚ) / (moves.length : ℚ) := by
    intro l
    induction l with
    | nil => simp
    | cons a as ihl =>
      simp only [List.map_cons, List.sum_cons, List.filter_cons]
      rw [ihl]
      by_cases hmem : a ∈ moves
      · rw [if_pos hmem, if_pos (by simpa using hmem), List.length_cons]
        push_cast
        ring
      · rw [if_neg hmem, if_neg (by simpa using hmem), zero_div, zero_add]
  rw [hsum, filter_length_of_nodup avail moves ha hm hsub]
  refine div_self ?_
  exact Nat.cast_ne_zero.mpr fun h0 => hne (List.length_eq_zero.mp h0)

/-- Claim C3: for every simulation produced by the uniform-policy generator,
replaying each position's played move in order from the board of the first
position (or from the generator's start position when there are no
positions) yields exactly the simulation's final board. -/
theorem generator_simulation_replay {B M : Type} [DecidableEq M]
    (rules : GameRules B M) (solver : B → Option OutcomeWDL × Option (List M))
    (rand : Nat → Nat) (start_pos : B) (max_game_length : Nat) (sim : Simulation B M)
    (hrun : main_generator rules solver rand start_pos max_game_length = some sim) :
    replayMoves rules ((sim.positions.head?.map Position.board).getD start_pos)
      (sim.positions.map Position.played_mv) = some sim.final_board := by
  obtain ⟨hreplay, hhead, _⟩ :=
    mainGenLoop_spec rules solver rand max_game_length 0 start_pos sim hrun
  cases hps : sim.positions with
  | nil =>
    rw [hps] at hreplay
    simpa using hreplay
  | cons p rest =>
    have hpb : p.board = start_pos := hhead p (by rw [hps]; rfl)
    rw [hps] at hreplay
    simpa [hpb] using hreplay

/-- Claim C3 witness: on the toy game the generated simulation replays from
the first position's board to the final board. -/
theorem generator_simulation_replay_witness :
    replayMoves toyRules ((simW.positions.head?.map Position.board).getD 1)
      (simW.positions.map Position.played_mv) = some simW.final_board :=
  generator_simulation_replay toyRules toySolver (fun _ => 0) 1 2 simW rfl

/-- Claim C4: every position emitted by the uniform-policy generator carries a
zero-evaluation policy that is element-wise non-negative, sums to exactly 1,
and has length equal to the number of available moves on that position's
board, in both the solver branch and the uniform fallback branch (assuming
the external board reports duplicate-free move lists and the external solver
returns a duplicate-free non-empty subset of the available moves). -/
theorem generator_policy_distribution {B M : Type} [DecidableEq M]
    (rules : GameRules B M) (solver : B → Option OutcomeWDL × Option (List M))
    (rand : Nat → Nat) (start_pos : B) (max_game_length : Nat) (sim : Simulation B M)
    (hnodup : ∀ b avail, rules.availableMoves b = some avail → avail.Nodup)
    (hsolver : ∀ b moves, (solver b).2 = some moves → moves.Nodup ∧
      ∀ avail, rules.availableMoves b = some avail → ∀ m ∈ moves, m ∈ avail)
    (hrun : main_generator rules solver rand start_pos max_game_length = some sim) :
    ∀ p ∈ sim.positions, ∃ avail, rules.availableMoves p.board = some avail ∧
      p.zero_evaluation.policy.length = avail.length ∧
      (∀ x ∈ p.zero_evaluation.policy, 0 ≤ x) ∧
      p.zero_evaluation.policy.sum = 1 := by
  intro p hp
  obtain ⟨_, _, hpos⟩ :=
    mainGenLoop_spec rules solver rand max_game_length 0 start_pos sim hrun
  obtain ⟨avail, ha, hcase⟩ := hpos p hp
  refine ⟨avail, ha, ?_⟩
  rcases hcase with ⟨moves, hsm, hmem, hpol⟩ | ⟨_, hmem, hpol⟩
  · obtain ⟨hmnd, hmsub⟩ := hsolver p.board moves hsm
    have hsub := hmsub avail ha
    have hne : moves ≠ [] := by
      rintro rfl
      exact List.not_mem_nil p.played_mv hmem
    rw [hpol]
    exact ⟨by simp, indicator_policy_nonneg avail moves,
      indicator_policy_sum avail moves (hnodup p.board avail ha) hmnd hsub hne⟩
  · have hnz : avail.length ≠ 0 := by
      cases avail with
      | nil => exact absurd hmem (List.not_mem_nil p.played_mv)
      | cons a as => simp
    rw [hpol]
    exact ⟨uniform_policy_length avail.length, uniform_policy_nonneg avail.length,
      uniform_policy_sum avail.length hnz⟩

/-- Claim C4 witness: on the toy game the emitted position's policy is the
uniform singleton distribution, of length 1 and summing to 1. -/
theorem generator_policy_distribution_witness :
    (uniform_policy 1).sum = 1 ∧ (uniform_policy 1).length = 1 := by
  obtain ⟨avail, ha, hlen, _, hsum⟩ :=
    generator_policy_distribution toyRules toySolver (fun _ => 0) 1 2 simW
      (fun _ avail h => by
        obtain rfl : ([()] : List Unit) = avail := Option.some.inj h
        exact List.nodup_singleton ())
      (fun _ moves h => nomatch h)
      rfl
      ⟨1, true, (), 0, ⟨GenValues.uniform, uniform_policy 1⟩,
        ⟨GenValues.uniform, uniform_policy 1⟩⟩
      (List.mem_singleton_self _)
  obtain rfl : ([()] : List Unit) = avail := Option.some.inj ha
  exact ⟨hsum, hlen⟩

end KZero
